import Mathlib

/-!
Shallow embedding of `src/lib/index.ts` (TimeSeriesStatisticsManager).

Conventions of the embedding:
* JavaScript strings are modelled as `List Char` so that `String.split("#")`
  can be modelled faithfully.
* JavaScript numbers that the code uses as timestamps, counters and amounts
  are modelled as `Int`; all claims are about integral inputs.
* `moment(timestamp)` interprets a numeric argument as epoch *milliseconds*;
  `date.utc().format(partition.format)` truncates the instant to the start of
  its UTC minute / hour / day / month / year (the five format strings used by
  the repository), and `new Date(formatted).getTime()` parses the formatted
  string back to that truncated instant in epoch milliseconds.  The
  composition of these three steps is embedded as `bucketStartMs`, using
  standard Gregorian-calendar arithmetic for the month / year cases.
* The DynamoDB table is modelled as a list of items (`Store`); an
  `UpdateCommand` with expression `ADD #count :incr SET #timestamp = :time`
  is the upsert `applyUpdate`; a `QueryCommand` whose key condition is
  `topic_period = :tp AND time_partition BETWEEN :startTime AND :endTime`
  is the (inclusive) filter `query`.
* Fallible paths return `Except` / `Option`; the rejected promise produced
  by reading `.interval` of an `undefined` partition is `ReadError.config`.
-/

namespace TimeSeries

/-- JavaScript strings, modelled as lists of characters. -/
abbrev Str := List Char

/-- The separator used by `createTopicPeriod` (the template `topic#period`). -/
def hashChar : Char := '#'

/-! ### UTC Gregorian calendar arithmetic

These two functions embed the calendar arithmetic hidden inside
`moment(...).utc().format(...)` for the month / year format strings:
conversion between a day number (days since 1970-01-01) and a civil UTC date.
They are the standard days-from-civil / civil-from-days algorithms. -/

/-- Day number (days since 1970-01-01 UTC) of the civil date `(y, m, d)`. -/
def daysFromCivil (y m d : Int) : Int :=
  let yy : Int := if m ≤ 2 then y - 1 else y
  let era : Int := yy.fdiv 400
  let yoe : Int := yy - era * 400
  let mp : Int := if 2 < m then m - 3 else m + 9
  let doy : Int := (153 * mp + 2).fdiv 5 + d - 1
  let doe : Int := yoe * 365 + yoe.fdiv 4 - yoe.fdiv 100 + doy
  era * 146097 + doe - 719468

/-- Civil UTC date `(y, m, d)` of a day number (days since 1970-01-01 UTC). -/
def civilFromDays (z0 : Int) : Int × Int × Int :=
  let z : Int := z0 + 719468
  let era : Int := z.fdiv 146097
  let doe : Int := z - era * 146097
  let yoe : Int := (doe - doe.fdiv 1460 + doe.fdiv 36524 - doe.fdiv 146096).fdiv 365
  let y : Int := yoe + era * 400
  let doy : Int := doe - (365 * yoe + yoe.fdiv 4 - yoe.fdiv 100)
  let mp : Int := (5 * doy + 2).fdiv 153
  let d : Int := doy - (153 * mp + 2).fdiv 5 + 1
  let m : Int := if mp < 10 then mp + 3 else mp - 9
  (if m ≤ 2 then y + 1 else y, m, d)

/-- The five truncation rules expressed by the repository's `format` strings
(`"YYYY-MM-DDTHH:mm:00.000Z"`, `"YYYY-MM-DDTHH:00:00.000Z"`,
`"YYYY-MM-DDT00:00:00.000Z"`, `"YYYY-MM-01T00:00:00.000Z"`,
`"YYYY-01-01T00:00:00.000Z"`). -/
inductive Alignment where
  | minute
  | hour
  | day
  | month
  | year
deriving DecidableEq, Repr

/-- Source interface `TimePartition`: the `format` string is embedded as the
truncation rule it denotes (`Alignment`). -/
structure TimePartition where
  name : Str
  align : Alignment
  interval : Int
deriving DecidableEq, Repr

/-- The source's default `timePartitions` constant (same names, formats and
interval arithmetic: `60`, `60*60`, `60*60*24`, `60*60*24*30`,
`60*60*24*365`). -/
def timePartitions : List TimePartition :=
  [⟨"minute".toList, Alignment.minute, 60⟩,
   ⟨"hour".toList, Alignment.hour, 60 * 60⟩,
   ⟨"day".toList, Alignment.day, 60 * 60 * 24⟩,
   ⟨"month".toList, Alignment.month, 60 * 60 * 24 * 30⟩,
   ⟨"year".toList, Alignment.year, 60 * 60 * 24 * 365⟩]

/-- Embedding of `getTimePartitionValue` composed with
`new Date(timePartitionValue).getTime()` (source lines 195-199 and 205-206):
`moment(t)` interprets `t` as epoch milliseconds, the UTC format truncates it
to the start of its minute / hour / day / month / year, and `Date` parsing
returns that instant in epoch milliseconds. -/
def bucketStartMs : Alignment → Int → Int
  | Alignment.minute, t => 60000 * t.fdiv 60000
  | Alignment.hour, t => 3600000 * t.fdiv 3600000
  | Alignment.day, t => 86400000 * t.fdiv 86400000
  | Alignment.month, t =>
      let c := civilFromDays (t.fdiv 86400000)
      86400000 * daysFromCivil c.1 c.2.1 1
  | Alignment.year, t =>
      let c := civilFromDays (t.fdiv 86400000)
      86400000 * daysFromCivil c.1 1 1

/-- One item of the DynamoDB table: hash key `topic_period`, range key
`time_partition`, attributes `count` and `time`.  The `time` attribute is the
ISO-8601 string `timePartition.toISOString()`; since that string is uniquely
determined by the instant, it is embedded as the instant itself. -/
structure Cell where
  topic_period : Str
  time_partition : Int
  count : Int
  time : Int
deriving DecidableEq, Repr

/-- The DynamoDB table contents. -/
abbrev Store := List Cell

/-- Source interface `Statistic`.  The `period` field is produced by array
destructuring of `split("#")` and is `undefined` (here `none`) when the hash
key contains no separator. -/
structure Statistic where
  topic : Str
  period : Option Str
  count : Int
  time_partition : Int
deriving DecidableEq, Repr

/-- Source `createTopicPeriod` (line 187-189): the template `topic#period`. -/
def createTopicPeriod (topic period : Str) : Str :=
  topic ++ [hashChar] ++ period

/-- Source `getTimePartition` (line 191-193): `Array.prototype.find`, which
returns `undefined` (`none`) when no configured partition has the name. -/
def getTimePartition (tps : List TimePartition) (period : Str) : Option TimePartition :=
  tps.find? (fun tp => tp.name == period)

/-- One `UpdateCommand` issued by `addStatistic`: key
`(topic_period, time_partition)`, expression
`ADD #count :incr SET #timestamp = :time` with values `:incr` and `:time`. -/
structure UpdateOp where
  topic_period : Str
  time_partition : Int
  incr : Int
  timeVal : Int
deriving DecidableEq, Repr

/-- The update parameters built for one partition inside the `addStatistic`
loop (source lines 204-224).  `:incr` is `amount ? amount : 1`: the JavaScript
conditional treats a missing `amount` and the (falsy) number `0` alike, so the
increment is `1` in both cases. -/
def updateOpFor (topic : Str) (tp : TimePartition) (timestamp : Int)
    (amount : Option Int) : UpdateOp :=
  let b := bucketStartMs tp.align timestamp
  { topic_period := createTopicPeriod topic tp.name
    time_partition := b
    incr := match amount with
      | none => 1
      | some a => if a = 0 then 1 else a
    timeVal := b }

/-- The list of update commands one `addStatistic` call builds: one per
configured partition, in the order of the configured partition list. -/
def addStatisticOps (tps : List TimePartition) (topic : Str) (timestamp : Int)
    (amount : Option Int) : List UpdateOp :=
  tps.map (fun tp => updateOpFor topic tp timestamp amount)

/-- DynamoDB semantics of one `UpdateCommand` with expression
`ADD #count :incr SET #timestamp = :time`: if an item with the key exists its
`count` is incremented and its `time` overwritten, otherwise a fresh item is
created with `count = :incr` (`ADD` treats a missing attribute as `0`). -/
def applyUpdate (s : Store) (ktp : Str) (kts : Int) (incr : Int) (tv : Int) : Store :=
  if s.any (fun c => c.topic_period == ktp && c.time_partition == kts) then
    s.map (fun c =>
      if c.topic_period == ktp && c.time_partition == kts then
        { c with count := c.count + incr, time := tv }
      else c)
  else
    s ++ [⟨ktp, kts, incr, tv⟩]

/-- Effect of one update command on the table. -/
def applyOp (s : Store) (op : UpdateOp) : Store :=
  applyUpdate s op.topic_period op.time_partition op.incr op.timeVal

/-- Effect of a list of update commands, applied left to right. -/
def applyOps (s : Store) (ops : List UpdateOp) : Store :=
  ops.foldl applyOp s

/-- A model of `this.client.send` for update commands: given the current table
and a command, the backend either fails (the SDK call rejects with an error of
type `ε`) or returns the updated table.  A failed send leaves the table as it
was. -/
def UpdateBackend (ε : Type) : Type := Store → UpdateOp → Except ε Store

/-- The backend on which every send succeeds with the DynamoDB update
semantics. -/
def okBackend : UpdateBackend Unit := fun s op => Except.ok (applyOp s op)

/-- Sequential execution of update commands (the `for ... await` loop of
`addStatistic`, source lines 204-233): each command is sent and awaited before
the next; the first failing send stops the loop and its error propagates.
Returns the commands actually sent, the resulting table, and the propagated
error if any (`none` means the call resolved). -/
def sendUpdates {ε : Type} (b : UpdateBackend ε) :
    Store → List UpdateOp → List UpdateOp × Store × Option ε
  | s, [] => ([], s, none)
  | s, op :: rest =>
    match b s op with
    | Except.error e => ([op], s, some e)
    | Except.ok s1 =>
      let r := sendUpdates b s1 rest
      (op :: r.1, r.2.1, r.2.2)

/-- Source `addStatistic` (lines 201-235), after the readiness gate: build one
update per configured partition and send them sequentially. -/
def addStatistic {ε : Type} (b : UpdateBackend ε) (tps : List TimePartition)
    (s : Store) (topic : Str) (timestamp : Int) (amount : Option Int) :
    List UpdateOp × Store × Option ε :=
  sendUpdates b s (addStatisticOps tps topic timestamp amount)

/-- JavaScript `String.prototype.split` with the single-character separator
`"#"` and no limit: `""` splits to `[""]`, and separators at the ends produce
empty segments. -/
def splitOnHash : Str → List Str
  | [] => [[]]
  | c :: cs =>
    match splitOnHash cs with
    | [] => [[]]
    | p :: ps => if c = '#' then [] :: p :: ps else (c :: p) :: ps

/-- Reconstruction of a `Statistic` from a queried item (source lines
258-265): `const [topic, period] = item.topic_period.split("#")` takes the
first two segments; `period` is `undefined` (`none`) when there is only one. -/
def itemToStatistic (c : Cell) : Statistic :=
  match splitOnHash c.topic_period with
  | [] => ⟨[], none, c.count, c.time_partition⟩
  | t :: rest => ⟨t, rest.head?, c.count, c.time_partition⟩

/-- DynamoDB semantics of the `QueryCommand` with key condition
`topic_period = :tp AND time_partition BETWEEN :startTime AND :endTime`:
`BETWEEN` is inclusive at both ends. -/
def query (s : Store) (hk : Str) (lo hi : Int) : List Cell :=
  s.filter (fun c =>
    c.topic_period == hk && decide (lo ≤ c.time_partition) &&
      decide (c.time_partition ≤ hi))

/-- The error with which a read call rejects:
`config` models the `TypeError` thrown when `getStatisticsPeriod` reads
`partition.interval` after `getTimePartition` returned `undefined` for an
unknown period name — the unknown-partition (configuration) failure. -/
inductive ReadError where
  | config
deriving DecidableEq, Repr

/-- A command sent to the store: an update (write) or a query (read). -/
inductive StoreOp where
  | update (op : UpdateOp)
  | queryOp (hk : Str) (lo hi : Int)
deriving DecidableEq, Repr

/-- Effect of a store command on the table: updates upsert, queries read
without modifying anything. -/
def applyStoreOp (s : Store) : StoreOp → Store
  | StoreOp.update op => applyOp s op
  | StoreOp.queryOp _ _ _ => s

/-- Whether a store command is a query (a pure read). -/
def isQueryOp : StoreOp → Bool
  | StoreOp.update _ => false
  | StoreOp.queryOp _ _ _ => true

/-- Source `getStatisticsPeriod` (lines 237-274), after the readiness gate,
together with the store commands it sends.  When the period resolves, both
bounds are aligned down with `Math.floor(x / interval) * interval` and one
query is sent; when `getTimePartition` returns `undefined`, the
`partition.interval` access throws before any command is sent. -/
def getStatisticsPeriodRun (tps : List TimePartition) (s : Store) (topic period : Str)
    (startTime endTime : Int) : List StoreOp × Except ReadError (List Statistic) :=
  match getTimePartition tps period with
  | none => ([], Except.error ReadError.config)
  | some partition =>
    let st := partition.interval * startTime.fdiv partition.interval
    let en := partition.interval * endTime.fdiv partition.interval
    let hk := createTopicPeriod topic period
    ([StoreOp.queryOp hk st en], Except.ok ((query s hk st en).map itemToStatistic))

/-- The value (resolved list or rejection) of `getStatisticsPeriod`. -/
def getStatisticsPeriod (tps : List TimePartition) (s : Store) (topic period : Str)
    (startTime endTime : Int) : Except ReadError (List Statistic) :=
  (getStatisticsPeriodRun tps s topic period startTime endTime).2

/-- `Promise.all` over already-determined outcomes: resolves with the list of
results, or rejects with the first rejection. -/
def gatherExcept {ε α : Type} : List (Except ε α) → Except ε (List α)
  | [] => Except.ok []
  | Except.error e :: _ => Except.error e
  | Except.ok a :: rest => (gatherExcept rest).map (fun l => a :: l)

/-- Source `getStatistics` (lines 276-285), after the readiness gate, together
with the store commands it sends: one `getStatisticsPeriod` per configured
partition (`Promise.all` over `this.timePartitions.map`), results flattened
with `Array.prototype.flat`. -/
def getStatisticsRun (tps : List TimePartition) (s : Store) (topic : Str)
    (startTime endTime : Int) : List StoreOp × Except ReadError (List Statistic) :=
  let subs := tps.map (fun p => getStatisticsPeriodRun tps s topic p.name startTime endTime)
  ((subs.map Prod.fst).flatten,
    (gatherExcept (subs.map Prod.snd)).map List.flatten)

/-- The value (resolved list or rejection) of `getStatistics`. -/
def getStatistics (tps : List TimePartition) (s : Store) (topic : Str)
    (startTime endTime : Int) : Except ReadError (List Statistic) :=
  (getStatisticsRun tps s topic startTime endTime).2

/-- A read call made against the manager. -/
inductive ReadReq where
  | period (topic periodName : Str) (lo hi : Int)
  | all (topic : Str) (lo hi : Int)

/-- The store commands a read call sends against the table `s`. -/
def readReqTrace (tps : List TimePartition) (s : Store) : ReadReq → List StoreOp
  | ReadReq.period topic periodName lo hi =>
      (getStatisticsPeriodRun tps s topic periodName lo hi).1
  | ReadReq.all topic lo hi => (getStatisticsRun tps s topic lo hi).1

/-- Execution of a sequence of read calls: each call's store commands are
applied to the table before the next call runs. -/
def execReads (tps : List TimePartition) : Store → List ReadReq → Store
  | s, [] => s
  | s, r :: rest => execReads tps ((readReqTrace tps s r).foldl applyStoreOp s) rest

/-! ### The readiness gate (`onReady`, source lines 78-125)

The constructor starts provisioning asynchronously and eventually settles the
manager: on success `state` becomes `INITIALIZED` and every pending callback
is invoked with no argument; on failure `state` becomes `FAIL` and every
pending callback is invoked with the caught error.  `onReady` checks the
state: `INITIALIZED` resolves, `FAIL` calls `reject()` with *no* argument, and
`INITIALIZING` registers a callback that rejects with its argument when the
argument is truthy and resolves otherwise. -/

/-- A JavaScript value as far as the gate logic observes it: `undefined`, or a
thrown error object (error objects are always truthy). -/
inductive JsVal where
  | undef
  | obj (id : Nat)
deriving DecidableEq, Repr

/-- JavaScript truthiness of the modelled values: `undefined` is falsy, error
objects are truthy. -/
def truthy : JsVal → Bool
  | JsVal.undef => false
  | JsVal.obj _ => true

/-- How provisioning settled: resolved, or rejected with an error object. -/
inductive Settlement where
  | ok
  | fail (e : Nat)
deriving DecidableEq, Repr

/-- The argument the settlement passes to each pending callback:
`resolveReadyPromises` calls `resolve()` (argument `undefined`, lines
113-118), `rejectReadyPromises` calls `resolve(error)` (lines 120-125). -/
def settlementArg : Settlement → JsVal
  | Settlement.ok => JsVal.undef
  | Settlement.fail e => JsVal.obj e

/-- How one `onReady` promise settles. -/
inductive OnReadyOutcome where
  | resolved
  | rejected (reason : JsVal)
deriving DecidableEq, Repr

/-- The callback registered while the state is `INITIALIZING` (lines
102-108): `if (error) reject(error); else resolve();`. -/
def pendingCallbackOutcome (error : JsVal) : OnReadyOutcome :=
  if truthy error then OnReadyOutcome.rejected error else OnReadyOutcome.resolved

/-- Whether the `onReady` call happens before or after provisioning settled. -/
inductive CallTime where
  | beforeSettle
  | afterSettle
deriving DecidableEq, Repr

/-- Outcome of one `onReady()` call (lines 95-111), given how provisioning
settles and whether the call is made before or after that settlement.  A call
after settlement sees state `INITIALIZED` (`resolve()`) or `FAIL`
(`reject()` — rejection reason `undefined`); a call before settlement
registers the pending callback, which later receives `settlementArg`. -/
def onReadyOutcome (st : Settlement) : CallTime → OnReadyOutcome
  | CallTime.afterSettle =>
    match st with
    | Settlement.ok => OnReadyOutcome.resolved
    | Settlement.fail _ => OnReadyOutcome.rejected JsVal.undef
  | CallTime.beforeSettle => pendingCallbackOutcome (settlementArg st)

/-- The increment the source expression `amount ? amount : 1` (line 220)
produces: the provided amount when it is truthy, `1` when the argument is
missing or is the falsy number `0`. -/
def jsAmountIncr : Option Int → Int
  | none => 1
  | some a => if a = 0 then 1 else a

/-- A concrete backend used to exercise the failure path of `addStatistic`: the
send for the hour-partition cell of topic `t` rejects with error `7`, every
other send succeeds with the usual update semantics. -/
def failOnHour : UpdateBackend Nat := fun s op =>
  if op.topic_period = createTopicPeriod ("t".toList) ("hour".toList) then Except.error 7
  else Except.ok (applyOp s op)

end TimeSeries

namespace TimeSeries

/-! ### Helper lemmas -/

/-- With the always-successful backend, the loop sends every command and the
table is the left fold of the updates. -/
theorem sendUpdates_okBackend (s : Store) (ops : List UpdateOp) :
    sendUpdates okBackend s ops = (ops, applyOps s ops, none) := by
  induction ops generalizing s with
  | nil => simp [sendUpdates, applyOps]
  | cons op rest ih => simp [sendUpdates, okBackend, applyOps, List.foldl_cons, ih]

/-- If the call resolved, every built command was sent. -/
theorem sendUpdates_resolved_trace {ε : Type} (b : UpdateBackend ε) (ops : List UpdateOp)
    (s : Store) (h : (sendUpdates b s ops).2.2 = none) : (sendUpdates b s ops).1 = ops := by
  induction ops generalizing s with
  | nil => rfl
  | cons op rest ih =>
    cases hb : b s op with
    | error e => simp [sendUpdates, hb] at h
    | ok s1 =>
      simp only [sendUpdates, hb] at h ⊢
      simpa using ih s1 h

/-- If the call rejected with `e`, some command `k` failed: the commands sent
are exactly the first `k + 1`, the first `k` all succeeded (producing the
final table), and the backend failed with `e` on command `k`. -/
theorem sendUpdates_error_spec {ε : Type} (b : UpdateBackend ε) (ops : List UpdateOp)
    (s : Store) (e : ε) (h : (sendUpdates b s ops).2.2 = some e) :
    ∃ k, ∃ hk : k < ops.length,
      (sendUpdates b s ops).1 = ops.take (k + 1) ∧
      sendUpdates b s (ops.take k) = (ops.take k, (sendUpdates b s ops).2.1, none) ∧
      b (sendUpdates b s ops).2.1 (ops.get ⟨k, hk⟩) = Except.error e := by
  induction ops generalizing s with
  | nil => simp [sendUpdates] at h
  | cons op rest ih =>
    cases hb : b s op with
    | error e1 =>
      have hres : sendUpdates b s (op :: rest) = ([op], s, some e1) := by
        simp [sendUpdates, hb]
      rw [hres] at h
      have he : e1 = e := by simpa using h
      subst he
      refine ⟨0, by simp, ?_, ?_, ?_⟩
      · rw [hres]
        rfl
      · rw [hres]
        rfl
      · rw [hres]
        exact hb
    | ok s1 =>
      have hres : sendUpdates b s (op :: rest) =
          (op :: (sendUpdates b s1 rest).1, (sendUpdates b s1 rest).2.1,
            (sendUpdates b s1 rest).2.2) := by
        simp [sendUpdates, hb]
      rw [hres] at h
      obtain ⟨k, hk, h1, h2, h3⟩ := ih s1 h
      refine ⟨k + 1, by simpa using Nat.succ_lt_succ hk, ?_, ?_, ?_⟩
      · rw [hres]
        simpa using h1
      · have ht : (op :: rest).take (k + 1) = op :: rest.take k := rfl
        rw [ht]
        simp only [sendUpdates, hb, h2, hres]
      · rw [hres]
        simpa using h3

/-- Filtering after a map that fixes every kept element and preserves the
predicate is the same as filtering the original list. -/
theorem filter_map_fix {α : Type} (f : α → α) (p : α → Bool) (l : List α)
    (h1 : ∀ c, p (f c) = p c) (h2 : ∀ c, p c = true → f c = c) :
    (l.map f).filter p = l.filter p := by
  induction l with
  | nil => rfl
  | cons c cs ih =>
    simp only [List.map_cons, List.filter_cons, h1 c]
    cases hp : p c with
    | false => simpa using ih
    | true => simp [h2 c hp, ih]

/-- An update whose hash key differs from the queried one does not change the
query result: the upsert only touches items under its own hash key, and only
their `count` / `time` attributes. -/
theorem query_applyUpdate_ne (s : Store) (ktp : Str) (kts incr tv : Int) (K : Str)
    (lo hi : Int) (hne : ktp ≠ K) :
    query (applyUpdate s ktp kts incr tv) K lo hi = query s K lo hi := by
  unfold applyUpdate
  cases hany : s.any (fun c => c.topic_period == ktp && c.time_partition == kts) with
  | true =>
    simp only [hany, if_true, query]
    apply filter_map_fix
    · intro c
      by_cases hc : (c.topic_period == ktp && c.time_partition == kts) = true
      · simp [hc]
      · simp [hc]
    · intro c hc
      have hK : c.topic_period = K := by
        have := (Bool.and_eq_true _ _).mp ((Bool.and_eq_true _ _).mp hc).1
        exact_mod_cast beq_iff_eq.mp this.1
      have : (c.topic_period == ktp) = false := by
        simp [hK]
        exact fun hh => hne hh.symm
      simp [this]
  | false =>
    simp only [hany, if_false, query, List.filter_append]
    have : ((⟨ktp, kts, incr, tv⟩ : Cell).topic_period == K) = false := by
      simp
      exact hne
    simp [List.filter_cons, this]

/-- An update under a hash key not present in the table appends a fresh item
whose `count` is the increment. -/
theorem applyUpdate_fresh (s : Store) (ktp : Str) (kts incr tv : Int)
    (h : ∀ c ∈ s, c.topic_period ≠ ktp) :
    applyUpdate s ktp kts incr tv = s ++ [⟨ktp, kts, incr, tv⟩] := by
  unfold applyUpdate
  have hany : s.any (fun c => c.topic_period == ktp && c.time_partition == kts) = false := by
    rw [List.any_eq_false]
    intro c hc
    simp [h c hc]
  simp [hany]

/-- Different period names give different composite hash keys for the same
topic. -/
theorem createTopicPeriod_ne_of_name_ne (topic : Str) {a b : Str} (h : a ≠ b) :
    createTopicPeriod topic a ≠ createTopicPeriod topic b := by
  intro hh
  apply h
  have h2 : (topic ++ [hashChar]) ++ a = (topic ++ [hashChar]) ++ b := by
    simpa [createTopicPeriod, List.append_assoc] using hh
  exact List.append_cancel_left h2

/-- The reconstruction keeps the item's `count` unchanged. -/
theorem itemToStatistic_count (c : Cell) : (itemToStatistic c).count = c.count := by
  unfold itemToStatistic
  cases splitOnHash c.topic_period with
  | nil => rfl
  | cons t rest => rfl

/-- The reconstruction keeps the item's `time_partition` unchanged. -/
theorem itemToStatistic_time_partition (c : Cell) :
    (itemToStatistic c).time_partition = c.time_partition := by
  unfold itemToStatistic
  cases splitOnHash c.topic_period with
  | nil => rfl
  | cons t rest => rfl

/-- A minute-bucket start is a multiple of the minute interval, so the read
path's `Math.floor (x / 60) * 60` alignment leaves it unchanged. -/
theorem minute_bucket_align (t : Int) :
    60 * (bucketStartMs Alignment.minute t).fdiv 60 = bucketStartMs Alignment.minute t := by
  show 60 * ((60000 * t.fdiv 60000).fdiv 60) = 60000 * t.fdiv 60000
  have h : (60000 : Int) * t.fdiv 60000 = 60 * (1000 * t.fdiv 60000) := by ring
  rw [h, Int.mul_fdiv_cancel_left _ (by norm_num)]

/-- `Array.prototype.find` returns `undefined` when no configured partition
carries the requested name. -/
theorem getTimePartition_eq_none (tps : List TimePartition) (period : Str)
    (h : ∀ tp ∈ tps, tp.name ≠ period) : getTimePartition tps period = none := by
  rw [getTimePartition, List.find?_eq_none]
  intro tp htp
  simp [h tp htp]

/-- `splitOnHash` never returns the empty list of segments. -/
theorem splitOnHash_ne_nil (l : Str) : splitOnHash l ≠ [] := by
  cases l with
  | nil => simp [splitOnHash]
  | cons c cs =>
    simp only [splitOnHash]
    cases h : splitOnHash cs with
    | nil => simp
    | cons p ps =>
      by_cases hc : c = '#' <;> simp [hc]

/-- Splitting a separator-free string yields the single segment. -/
theorem splitOnHash_no_sep (t : Str) (h : hashChar ∉ t) : splitOnHash t = [t] := by
  induction t with
  | nil => rfl
  | cons c cs ih =>
    have hc : ¬c = '#' := by
      intro hh
      exact h (by simp [hashChar, hh])
    have hcs : hashChar ∉ cs := fun hm => h (List.mem_cons_of_mem _ hm)
    simp [splitOnHash, ih hcs, hc]

/-- Splitting past a separator that does not occur in the prefix peels off the
prefix as the first segment. -/
theorem splitOnHash_sep_append (t p : Str) (h : hashChar ∉ t) :
    splitOnHash (t ++ hashChar :: p) = t :: splitOnHash p := by
  induction t with
  | nil =>
    simp only [List.nil_append, splitOnHash, hashChar]
    cases hq : splitOnHash p with
    | nil => exact absurd hq (splitOnHash_ne_nil p)
    | cons q qs => simp
  | cons c cs ih =>
    have hc : ¬c = '#' := by
      intro hh
      exact h (by simp [hashChar, hh])
    have hcs : hashChar ∉ cs := fun hm => h (List.mem_cons_of_mem _ hm)
    have hrec := ih hcs
    simp only [List.cons_append, splitOnHash, List.append_eq]
    rw [hrec]
    simp [hc]

/-- Splitting a composite key built from separator-free `topic` and `period`
recovers exactly those two segments. -/
theorem splitOnHash_createTopicPeriod (t p : Str) (h1 : hashChar ∉ t) (h2 : hashChar ∉ p) :
    splitOnHash (createTopicPeriod t p) = [t, p] := by
  have he : createTopicPeriod t p = t ++ hashChar :: p := by
    simp [createTopicPeriod]
  rw [he, splitOnHash_sep_append t p h1, splitOnHash_no_sep p h2]

/-- `Promise.all` over calls that all resolve resolves with the list of their
results. -/
theorem gatherExcept_forall2 {ε α β : Type} (f : β → Except ε α) (ps : List β)
    (rs : List α) (h : List.Forall₂ (fun p r => f p = Except.ok r) ps rs) :
    gatherExcept (ps.map f) = Except.ok rs := by
  induction h with
  | nil => rfl
  | cons hpr _ ih =>
    simp only [List.map_cons, gatherExcept]
    rw [hpr]
    simp only [gatherExcept]
    rw [ih]
    rfl

/-- Every store command sent by `getStatisticsPeriod` is a query. -/
theorem getStatisticsPeriodRun_trace_queries (tps : List TimePartition) (s : Store)
    (topic period : Str) (lo hi : Int) :
    ((getStatisticsPeriodRun tps s topic period lo hi).1.all isQueryOp) = true := by
  cases hf : getTimePartition tps period with
  | none => simp [getStatisticsPeriodRun, hf]
  | some p => simp [getStatisticsPeriodRun, hf, isQueryOp]

/-- Every store command sent by `getStatistics` is a query. -/
theorem getStatisticsRun_trace_queries (tps : List TimePartition) (s : Store)
    (topic : Str) (lo hi : Int) :
    ((getStatisticsRun tps s topic lo hi).1.all isQueryOp) = true := by
  rw [List.all_eq_true]
  intro op hop
  simp only [getStatisticsRun, List.map_map, List.mem_flatten, List.mem_map] at hop
  obtain ⟨tr, ⟨p, hp, htr⟩, hmem⟩ := hop
  have hall := getStatisticsPeriodRun_trace_queries tps s topic p.name lo hi
  rw [List.all_eq_true] at hall
  apply hall
  rw [← htr] at hmem
  exact hmem

/-- Folding only query commands over the table leaves it unchanged. -/
theorem foldl_applyStoreOp_queries (s : Store) (ops : List StoreOp)
    (h : ops.all isQueryOp = true) : ops.foldl applyStoreOp s = s := by
  induction ops generalizing s with
  | nil => rfl
  | cons op rest ih =>
    rw [List.all_cons, Bool.and_eq_true] at h
    cases op with
    | update u => simp [isQueryOp] at h
    | queryOp hk lo hi =>
      rw [List.foldl_cons]
      exact ih (applyStoreOp s (StoreOp.queryOp hk lo hi)) h.2

/-! ### Claim theorems -/

/-- C2: for every store, topic, time range and every period name that is not
the name of any configured TimePartition, `getStatisticsPeriod` fails with the
unknown-partition (configuration) error — it never returns a silently empty
result. -/
theorem getStatisticsPeriod_unknown_period_fails (tps : List TimePartition)
    (s : Store) (topic period : Str) (lo hi : Int)
    (h : ∀ tp ∈ tps, tp.name ≠ period) :
    getStatisticsPeriod tps s topic period lo hi = Except.error ReadError.config := by
  have hf := getTimePartition_eq_none tps period h
  simp [getStatisticsPeriod, getStatisticsPeriodRun, hf]

/-- Witness for C2: the default configuration has no partition named
`total`, and the lookup indeed rejects with the configuration error. -/
theorem getStatisticsPeriod_unknown_period_fails_witness :
    (∀ tp ∈ timePartitions, tp.name ≠ ("total".toList)) ∧
    getStatisticsPeriod timePartitions [] ("t".toList) ("total".toList) 0 100 =
      Except.error ReadError.config :=
  ⟨by decide,
    getStatisticsPeriod_unknown_period_fails timePartitions [] ("t".toList)
      ("total".toList) 0 100 (by decide)⟩

/-- C3 (code evaluated at the failing input): `addStatistic("t", 1000000)`
writes range keys `[960000, 0, 0, 0, 0]` — bucket starts in epoch
milliseconds of the timestamp interpreted as epoch milliseconds — whereas the
claim (and the repository's own test) expects the epoch-seconds value
`floor(1000000 / 60) * 60 = 999960` for the minute cell; `1000000 % 60 = 40`,
so the two disagree. -/
theorem addStatistic_millisecond_keys_eval :
    (addStatisticOps timePartitions ("t".toList) 1000000 none).map
      (fun op => op.time_partition) = [960000, 0, 0, 0, 0] ∧
    (960000 : Int) ≠ 1000000 - 1000000 % 60 := by
  constructor
  · decide
  · decide

/-- C4 counterexample: when provisioning has failed with error object `7`, an
`onReady` call made after the failure settled rejects with `undefined`
(source line 100 calls `reject()` with no argument), not with the original
provisioning error. -/
theorem onReady_after_fail_rejects_undefined :
    onReadyOutcome (Settlement.fail 7) CallTime.afterSettle =
      OnReadyOutcome.rejected JsVal.undef ∧
    onReadyOutcome (Settlement.fail 7) CallTime.afterSettle ≠
      OnReadyOutcome.rejected (JsVal.obj 7) := by
  decide

/-- C4 amended: when provisioning fails, `onReady` calls that were pending
before the settlement reject with the original provisioning error, while
calls made after the failure has settled reject with `undefined` (no reason),
not with the original error. -/
theorem onReady_fail_outcomes (e : Nat) :
    onReadyOutcome (Settlement.fail e) CallTime.beforeSettle =
      OnReadyOutcome.rejected (JsVal.obj e) ∧
    onReadyOutcome (Settlement.fail e) CallTime.afterSettle =
      OnReadyOutcome.rejected JsVal.undef :=
  ⟨rfl, rfl⟩

/-- C8 counterexample: calling `addStatistic` with `amount = 0` increments by
`1`, not by the provided amount `0` — `amount ? amount : 1` treats the falsy
number `0` like a missing argument. -/
theorem addStatistic_amount_zero_increments_one :
    (updateOpFor ("t".toList) ⟨"minute".toList, Alignment.minute, 60⟩ 0 (some 0)).incr = 1 ∧
    (updateOpFor ("t".toList) ⟨"minute".toList, Alignment.minute, 60⟩ 0 (some 0)).incr ≠ 0 := by
  decide

/-- C8 amended: the atomic increment applied by every update command of an
`addStatistic` call equals the given amount whenever a nonzero amount is
provided, and equals 1 when the amount is omitted or is the (falsy) number
`0`. -/
theorem addStatistic_increment_value (tps : List TimePartition) (topic : Str)
    (t : Int) (amount : Option Int) (op : UpdateOp)
    (h : op ∈ addStatisticOps tps topic t amount) :
    op.incr = jsAmountIncr amount := by
  simp only [addStatisticOps, List.mem_map] at h
  obtain ⟨tp, -, rfl⟩ := h
  cases amount with
  | none => rfl
  | some a => rfl

/-- Witness for C8 amended: with `amount = 5` every written cell is
incremented by `5`. -/
theorem addStatistic_increment_value_witness :
    (updateOpFor ("t".toList) ⟨"minute".toList, Alignment.minute, 60⟩ 0 (some 5)) ∈
      addStatisticOps timePartitions ("t".toList) 0 (some 5) ∧
    (updateOpFor ("t".toList) ⟨"minute".toList, Alignment.minute, 60⟩ 0 (some 5)).incr = 5 :=
  ⟨by decide,
    addStatistic_increment_value timePartitions ("t".toList) 0 (some 5) _ (by decide)⟩

/-- C5: every `addStatistic` call builds exactly one upsert per configured
partition, in the order of the configured partition list, and sends them
sequentially: if the call resolves, every command was sent; if the backend
fails on command `k`, exactly the first `k + 1` commands were sent (none for
the remaining partitions), the error propagates to the caller, and the table
keeps the effects of the `k` successful writes (no rollback). -/
theorem addStatistic_sequential_abort {ε : Type} (b : UpdateBackend ε)
    (tps : List TimePartition) (s : Store) (topic : Str) (t : Int)
    (amount : Option Int) :
    addStatisticOps tps topic t amount =
      tps.map (fun tp => updateOpFor topic tp t amount) ∧
    ((addStatistic b tps s topic t amount).2.2 = none →
      (addStatistic b tps s topic t amount).1 = addStatisticOps tps topic t amount) ∧
    (∀ e, (addStatistic b tps s topic t amount).2.2 = some e →
      ∃ k, ∃ hk : k < (addStatisticOps tps topic t amount).length,
        (addStatistic b tps s topic t amount).1 =
          (addStatisticOps tps topic t amount).take (k + 1) ∧
        sendUpdates b s ((addStatisticOps tps topic t amount).take k) =
          ((addStatisticOps tps topic t amount).take k,
            (addStatistic b tps s topic t amount).2.1, none) ∧
        b (addStatistic b tps s topic t amount).2.1
          ((addStatisticOps tps topic t amount).get ⟨k, hk⟩) = Except.error e) :=
  ⟨rfl, fun h => sendUpdates_resolved_trace b _ s h,
    fun e h => sendUpdates_error_spec b _ s e h⟩

/-- Witness for C5: with the backend that rejects the hour-partition write of
topic `t`, the call rejects with error `7` and the abort decomposition holds
at that concrete run. -/
theorem addStatistic_sequential_abort_witness :
    (addStatistic failOnHour timePartitions [] ("t".toList) 0 none).2.2 = some 7 ∧
    (∃ k, ∃ hk : k < (addStatisticOps timePartitions ("t".toList) 0 none).length,
      (addStatistic failOnHour timePartitions [] ("t".toList) 0 none).1 =
        (addStatisticOps timePartitions ("t".toList) 0 none).take (k + 1) ∧
      sendUpdates failOnHour [] ((addStatisticOps timePartitions ("t".toList) 0 none).take k) =
        ((addStatisticOps timePartitions ("t".toList) 0 none).take k,
          (addStatistic failOnHour timePartitions [] ("t".toList) 0 none).2.1, none) ∧
      failOnHour (addStatistic failOnHour timePartitions [] ("t".toList) 0 none).2.1
        ((addStatisticOps timePartitions ("t".toList) 0 none).get ⟨k, hk⟩) = Except.error 7) :=
  ⟨by decide,
    (addStatistic_sequential_abort failOnHour timePartitions [] ("t".toList) 0 none).2.2
      7 (by decide)⟩

/-- C6: when the period name resolves to a configured partition,
`getStatisticsPeriod` aligns both bounds down to the nearest multiple of that
partition's `interval` (integer floor division, then multiplication) and
returns exactly the items of the queried hash key whose bucket timestamp lies
between the two aligned bounds, both ends inclusive; in the default
configuration the interval constant used for this alignment is `30 * 86400`
for `month` and `365 * 86400` for `year` (the coarse constants, not the
calendar rule used on the write path). -/
theorem getStatisticsPeriod_alignment_filter (tps : List TimePartition)
    (s : Store) (topic period : Str) (startTime endTime : Int)
    (p : TimePartition) (h : getTimePartition tps period = some p) :
    getStatisticsPeriod tps s topic period startTime endTime =
      Except.ok ((query s (createTopicPeriod topic period)
        (p.interval * startTime.fdiv p.interval)
        (p.interval * endTime.fdiv p.interval)).map itemToStatistic) ∧
    (getTimePartition timePartitions ("month".toList)).map TimePartition.interval =
      some (30 * 86400) ∧
    (getTimePartition timePartitions ("year".toList)).map TimePartition.interval =
      some (365 * 86400) := by
  refine ⟨?_, by decide, by decide⟩
  simp [getStatisticsPeriod, getStatisticsPeriodRun, h]

/-- Witness for C6: the name `hour` resolves to the hour partition, and the
lookup on an empty table returns the mapped filter of the empty table. -/
theorem getStatisticsPeriod_alignment_filter_witness :
    getTimePartition timePartitions ("hour".toList) =
      some ⟨"hour".toList, Alignment.hour, 60 * 60⟩ ∧
    (getStatisticsPeriod timePartitions [] ("t".toList) ("hour".toList) 5000 9999 =
      Except.ok ((query [] (createTopicPeriod ("t".toList) ("hour".toList))
        ((⟨"hour".toList, Alignment.hour, 60 * 60⟩ : TimePartition).interval *
          (5000 : Int).fdiv (⟨"hour".toList, Alignment.hour, 60 * 60⟩ : TimePartition).interval)
        ((⟨"hour".toList, Alignment.hour, 60 * 60⟩ : TimePartition).interval *
          (9999 : Int).fdiv (⟨"hour".toList, Alignment.hour, 60 * 60⟩ : TimePartition).interval)).map
            itemToStatistic) ∧
      (getTimePartition timePartitions ("month".toList)).map TimePartition.interval =
        some (30 * 86400) ∧
      (getTimePartition timePartitions ("year".toList)).map TimePartition.interval =
        some (365 * 86400)) :=
  ⟨by decide,
    getStatisticsPeriod_alignment_filter timePartitions [] ("t".toList) ("hour".toList)
      5000 9999 ⟨"hour".toList, Alignment.hour, 60 * 60⟩ (by decide)⟩

/-- C7: whenever `getStatisticsPeriod` resolves with result `r_i` for each
configured partition `p_i` (in the configured order), `getStatistics` resolves
with exactly the flattened concatenation of those per-partition results. -/
theorem getStatistics_flatten_concat (tps : List TimePartition) (s : Store)
    (topic : Str) (startTime endTime : Int) (rs : List (List Statistic))
    (h : List.Forall₂
      (fun p r => getStatisticsPeriod tps s topic p.name startTime endTime = Except.ok r)
      tps rs) :
    getStatistics tps s topic startTime endTime = Except.ok rs.flatten := by
  have hmap : (tps.map (fun p => getStatisticsPeriodRun tps s topic p.name startTime endTime)).map
      Prod.snd = tps.map (fun p => getStatisticsPeriod tps s topic p.name startTime endTime) := by
    rw [List.map_map]
    rfl
  simp only [getStatistics, getStatisticsRun, hmap]
  rw [gatherExcept_forall2 _ tps rs h]
  rfl

/-- Witness for C7: with the default partitions and one minute cell in the
table, the five per-partition reads resolve and `getStatistics` returns their
flattened concatenation. -/
theorem getStatistics_flatten_concat_witness :
    List.Forall₂
      (fun p r => getStatisticsPeriod timePartitions
        [⟨createTopicPeriod ("a".toList) ("minute".toList), 60000, 1, 60000⟩]
        ("a".toList) p.name 60000 60000 = Except.ok r)
      timePartitions
      [[⟨"a".toList, some ("minute".toList), 1, 60000⟩], [], [], [], []] ∧
    getStatistics timePartitions
      [⟨createTopicPeriod ("a".toList) ("minute".toList), 60000, 1, 60000⟩]
      ("a".toList) 60000 60000 =
      Except.ok
        (List.flatten [[⟨"a".toList, some ("minute".toList), 1, 60000⟩], [], [], [], []]) := by
  have h : List.Forall₂
      (fun p r => getStatisticsPeriod timePartitions
        [⟨createTopicPeriod ("a".toList) ("minute".toList), 60000, 1, 60000⟩]
        ("a".toList) p.name 60000 60000 = Except.ok r)
      timePartitions
      [[⟨"a".toList, some ("minute".toList), 1, 60000⟩], [], [], [], []] := by
    refine List.Forall₂.cons (by rfl) ?_
    refine List.Forall₂.cons (by rfl) ?_
    refine List.Forall₂.cons (by rfl) ?_
    refine List.Forall₂.cons (by rfl) ?_
    exact List.Forall₂.cons (by rfl) List.Forall₂.nil
  exact ⟨h, getStatistics_flatten_concat timePartitions
    [⟨createTopicPeriod ("a".toList) ("minute".toList), 60000, 1, 60000⟩]
    ("a".toList) 60000 60000 _ h⟩

/-- C9 counterexample: for the topic `a#b` (which contains the separator) and
the configured period `minute`, the reconstruction does not invert the key
construction: the returned Statistic has topic `a` (and period `b`), not the
original topic `a#b`. -/
theorem getStatisticsPeriod_separator_topic_cex :
    getStatisticsPeriod timePartitions
      [⟨createTopicPeriod ("a#b".toList) ("minute".toList), 0, 1, 0⟩]
      ("a#b".toList) ("minute".toList) 0 0 =
      Except.ok [⟨"a".toList, some ("b".toList), 1, 0⟩] ∧
    ("a".toList : Str) ≠ "a#b".toList :=
  ⟨rfl, by decide⟩

/-- C9 amended: splitting the composite hash key inverts the key construction
provided neither the topic nor the period name contains the separator `#`:
every Statistic returned by a resolving `getStatisticsPeriod` call then
carries exactly the queried topic and period. -/
theorem getStatisticsPeriod_key_roundtrip (tps : List TimePartition) (s : Store)
    (topic period : Str) (lo hi : Int) (stats : List Statistic)
    (h1 : hashChar ∉ topic) (h2 : hashChar ∉ period)
    (h : getStatisticsPeriod tps s topic period lo hi = Except.ok stats) :
    ∀ st ∈ stats, st.topic = topic ∧ st.period = some period := by
  cases hf : getTimePartition tps period with
  | none => simp [getStatisticsPeriod, getStatisticsPeriodRun, hf] at h
  | some p =>
    simp only [getStatisticsPeriod, getStatisticsPeriodRun, hf, Except.ok.injEq] at h
    intro st hst
    rw [← h] at hst
    rw [List.mem_map] at hst
    obtain ⟨c, hc, rfl⟩ := hst
    rw [query, List.mem_filter] at hc
    have hck : c.topic_period = createTopicPeriod topic period := by
      have hb := hc.2
      rw [Bool.and_eq_true, Bool.and_eq_true] at hb
      exact beq_iff_eq.mp hb.1.1
    rw [itemToStatistic, hck, splitOnHash_createTopicPeriod topic period h1 h2]
    exact ⟨rfl, rfl⟩

/-- Witness for C9 amended: a lookup for the separator-free topic `a` and
period `minute` returns statistics carrying exactly that topic and period. -/
theorem getStatisticsPeriod_key_roundtrip_witness :
    hashChar ∉ ("a".toList : Str) ∧ hashChar ∉ ("minute".toList : Str) ∧
    ∀ st ∈ [(⟨"a".toList, some ("minute".toList), 1, 60000⟩ : Statistic)],
      st.topic = "a".toList ∧ st.period = some ("minute".toList) :=
  ⟨by decide, by decide,
    getStatisticsPeriod_key_roundtrip timePartitions
      [⟨createTopicPeriod ("a".toList) ("minute".toList), 60000, 1, 60000⟩]
      ("a".toList) ("minute".toList) 60000 60000
      [⟨"a".toList, some ("minute".toList), 1, 60000⟩]
      (by decide) (by decide) (by rfl)⟩

/-- C10: `getStatisticsPeriod` and `getStatistics` never modify the store:
every store command they send is a query, and executing any sequence of read
calls leaves every item of the table (and the set of items) unchanged. -/
theorem reads_do_not_modify_store (tps : List TimePartition) (s : Store) :
    (∀ topic period lo hi,
      ((getStatisticsPeriodRun tps s topic period lo hi).1.all isQueryOp) = true) ∧
    (∀ topic lo hi,
      ((getStatisticsRun tps s topic lo hi).1.all isQueryOp) = true) ∧
    ∀ reqs : List ReadReq, execReads tps s reqs = s := by
  refine ⟨fun topic period lo hi => getStatisticsPeriodRun_trace_queries tps s topic period lo hi,
    fun topic lo hi => getStatisticsRun_trace_queries tps s topic lo hi, ?_⟩
  intro reqs
  induction reqs with
  | nil => rfl
  | cons r rest ih =>
    show execReads tps ((readReqTrace tps s r).foldl applyStoreOp s) rest = s
    have htr : (readReqTrace tps s r).all isQueryOp = true := by
      cases r with
      | period topic periodName lo hi =>
        exact getStatisticsPeriodRun_trace_queries tps s topic periodName lo hi
      | all topic lo hi => exact getStatisticsRun_trace_queries tps s topic lo hi
    rw [foldl_applyStoreOp_queries s _ htr]
    exact ih

/-- Different period names give different commands: the wrapper of
`query_applyUpdate_ne` at the level of update commands. -/
theorem query_applyOp_ne (s : Store) (op : UpdateOp) (K : Str) (lo hi : Int)
    (hne : op.topic_period ≠ K) : query (applyOp s op) K lo hi = query s K lo hi :=
  query_applyUpdate_ne s op.topic_period op.time_partition op.incr op.timeVal K lo hi hne

/-- C1: starting from a store with no cells for the topic, one
`addStatistic(topic, t)` call (amount omitted) followed by
`getStatisticsPeriod(topic, "minute", a, a)`, where `a` is `t` truncated down
to the start of its minute (in the timescale the code uses for `t`), returns
exactly one Statistic, and that Statistic's count is 1. -/
theorem addStatistic_then_get_minute (s : Store) (topic : Str) (t : Int)
    (hs : ∀ c ∈ s, ∀ tp ∈ timePartitions, c.topic_period ≠ createTopicPeriod topic tp.name) :
    ∃ st : Statistic,
      getStatisticsPeriod timePartitions
        (addStatistic okBackend timePartitions s topic t none).2.1
        topic ("minute".toList) (bucketStartMs Alignment.minute t)
        (bucketStartMs Alignment.minute t) = Except.ok [st] ∧ st.count = 1 := by
  have hfresh : ∀ c ∈ s, c.topic_period ≠ createTopicPeriod topic ("minute".toList) := by
    intro c hc
    exact hs c hc ⟨"minute".toList, Alignment.minute, 60⟩ (by decide)
  have hstore : (addStatistic okBackend timePartitions s topic t none).2.1 =
      applyOps s (addStatisticOps timePartitions topic t none) := by
    rw [addStatistic, sendUpdates_okBackend]
  have hunfold : applyOps s (addStatisticOps timePartitions topic t none) =
      applyOp (applyOp (applyOp (applyOp
        (applyOp s (updateOpFor topic ⟨"minute".toList, Alignment.minute, 60⟩ t none))
        (updateOpFor topic ⟨"hour".toList, Alignment.hour, 60 * 60⟩ t none))
        (updateOpFor topic ⟨"day".toList, Alignment.day, 60 * 60 * 24⟩ t none))
        (updateOpFor topic ⟨"month".toList, Alignment.month, 60 * 60 * 24 * 30⟩ t none))
        (updateOpFor topic ⟨"year".toList, Alignment.year, 60 * 60 * 24 * 365⟩ t none) := rfl
  have h1 : applyOp s (updateOpFor topic ⟨"minute".toList, Alignment.minute, 60⟩ t none) =
      s ++ [⟨createTopicPeriod topic ("minute".toList), bucketStartMs Alignment.minute t, 1,
        bucketStartMs Alignment.minute t⟩] :=
    applyUpdate_fresh s (createTopicPeriod topic ("minute".toList))
      (bucketStartMs Alignment.minute t) 1 (bucketStartMs Alignment.minute t) hfresh
  have hfind : getTimePartition timePartitions ("minute".toList) =
      some ⟨"minute".toList, Alignment.minute, 60⟩ := by decide
  refine ⟨itemToStatistic ⟨createTopicPeriod topic ("minute".toList),
    bucketStartMs Alignment.minute t, 1, bucketStartMs Alignment.minute t⟩, ?_, ?_⟩
  · rw [hstore, hunfold, h1]
    simp only [getStatisticsPeriod, getStatisticsPeriodRun, hfind]
    rw [minute_bucket_align t]
    rw [query_applyOp_ne _ _ _ _ _
      (createTopicPeriod_ne_of_name_ne topic (by decide : ("year".toList : Str) ≠ "minute".toList))]
    rw [query_applyOp_ne _ _ _ _ _
      (createTopicPeriod_ne_of_name_ne topic (by decide : ("month".toList : Str) ≠ "minute".toList))]
    rw [query_applyOp_ne _ _ _ _ _
      (createTopicPeriod_ne_of_name_ne topic (by decide : ("day".toList : Str) ≠ "minute".toList))]
    rw [query_applyOp_ne _ _ _ _ _
      (createTopicPeriod_ne_of_name_ne topic (by decide : ("hour".toList : Str) ≠ "minute".toList))]
    rw [query, List.filter_append]
    have hnil : s.filter (fun c =>
        c.topic_period == createTopicPeriod topic ("minute".toList) &&
        decide (bucketStartMs Alignment.minute t ≤ c.time_partition) &&
        decide (c.time_partition ≤ bucketStartMs Alignment.minute t)) = [] := by
      rw [List.filter_eq_nil_iff]
      intro c hc
      simp only [Bool.and_eq_true, beq_iff_eq, decide_eq_true_eq]
      intro hcontra
      exact hfresh c hc hcontra.1.1
    rw [hnil]
    simp
  · rw [itemToStatistic_count]

/-- Witness for C1: topic `a`, timestamp `90000` (`1970-01-01T00:01:30Z` in
epoch milliseconds), empty initial store. -/
theorem addStatistic_then_get_minute_witness :
    (∀ c ∈ ([] : Store), ∀ tp ∈ timePartitions,
      c.topic_period ≠ createTopicPeriod ("a".toList) tp.name) ∧
    ∃ st : Statistic,
      getStatisticsPeriod timePartitions
        (addStatistic okBackend timePartitions [] ("a".toList) 90000 none).2.1
        ("a".toList) ("minute".toList) (bucketStartMs Alignment.minute 90000)
        (bucketStartMs Alignment.minute 90000) = Except.ok [st] ∧ st.count = 1 :=
  ⟨by simp, addStatistic_then_get_minute [] ("a".toList) 90000 (by simp)⟩
